import Mathlib

/-!
Verification of the `APIClient` HTTP client (src/src/index.ts) against its
natural-language specification.

The embedding models:
  * `Request` / `Response` values as the pipeline observes them (url, method,
    headers, body / status, body);
  * the JavaScript `Set` used for the listener registries, including its
    insertion-order-with-tombstones iteration semantics (`JSSet`);
  * the client state (`APIClient`: baseURL plus the two registries) and its
    operations `on` / `off` / `fetch` / `get` / `post` / `put` / `patch` /
    `delete`, transcribed from src/src/index.ts;
  * external collaborators (URL resolution, the platform `fetch` transport) and
    the overridable subclass hooks `before` / `after` as an environment `Env`,
    with failures as `Except`.

Listener functions are represented by numeric identifiers; an environment maps
an identifier to its behaviour.  Registering the same identifier twice models
registering the same function reference twice (JS `Set` identity semantics);
distinct identifiers model distinct function values, even if their behaviour
maps are equal.

Two renderings of the pipeline loop are given: `APIClient.fetch` folds over the
registry contents for listeners that do not mutate the registries (for such
listeners the live JS `for..of` loop and the fold coincide), and
`runBeforeLive` renders the live `for (let listener of this.beforeListeners)`
iteration faithfully for listeners that may mutate the client mid-iteration
(cursor over the insertion sequence with tombstones, exactly the JS `Set`
iterator contract: entries deleted before being reached are skipped, entries
appended during iteration are visited).
-/

/-- An HTTP request value, as constructed by `new Request(url.toString(), init)`
in `APIClient.fetch` and as observed/transformed by hooks and listeners. -/
structure Request where
  url : String
  method : String
  headers : List (String × String)
  body : Option String
deriving DecidableEq, Repr

/-- An HTTP response value: the pipeline only threads it through transforms;
the core reads neither status nor body itself. -/
structure Response where
  status : Nat
  body : String
deriving DecidableEq, Repr

/-- The `RequestInit` options bag accepted by `APIClient.fetch`: an optional
method, plus the pass-through fields (headers, body, cancellation signal). -/
structure RequestInit where
  method : Option String := none
  headers : List (String × String) := []
  body : Option String := none
  signal : Option Nat := none
deriving DecidableEq, Repr

/-- The `Omit<RequestInit, "method">` options bag accepted by the five verb
convenience methods: like `RequestInit` but with no method field. -/
structure RequestInitNoMethod where
  headers : List (String × String) := []
  body : Option String := none
  signal : Option Nat := none
deriving DecidableEq, Repr

/-- The spread `{ ...init, method: verb }` performed by each verb convenience
method: every field of `init` is forwarded unchanged and the method is forced. -/
def RequestInitNoMethod.withMethod (init : RequestInitNoMethod) (m : String) :
    RequestInit :=
  { method := some m
  , headers := init.headers
  , body := init.body
  , signal := init.signal }

/-- Construction of the initial request value `new Request(url.toString(), init)`:
the platform defaults the method to GET when `init` supplies none. -/
def mkRequest (url : String) (init : RequestInit) : Request :=
  { url := url
  , method := init.method.getD "GET"
  , headers := init.headers
  , body := init.body }

/-- A JavaScript `Set` of listeners, keyed by function identity (identifiers
here).  Represented as the insertion sequence with tombstones: `(k, true)` is a
live entry for listener `k`, `(k, false)` a deleted one.  This representation
carries exactly what the JS `Set` iterator contract needs: insertion order,
identity-based deduplication, and deletion that does not shift the positions of
later entries. -/
abbrev JSSet := List (Nat × Bool)

/-- Membership test of the JS `Set` (`Set.prototype.has`): some live entry
carries this identifier. -/
def JSSet.hasElem (s : JSSet) (k : Nat) : Bool :=
  s.any fun p => p.1 == k && p.2

/-- `Set.prototype.add`: no effect when a live entry for `k` exists, otherwise
a new live entry is appended at the end of the insertion sequence. -/
def JSSet.add (s : JSSet) (k : Nat) : JSSet :=
  if s.hasElem k then s else s ++ [(k, true)]

/-- `Set.prototype.delete`: the live entry for `k`, if any, becomes a
tombstone; nothing else changes and no error occurs when `k` is absent. -/
def JSSet.delete (s : JSSet) (k : Nat) : JSSet :=
  s.map fun p => if p.1 == k && p.2 then (p.1, false) else p

/-- `Set.prototype.size`: the number of live entries. -/
def JSSet.size (s : JSSet) : Nat :=
  (s.filter fun p => p.2).length

/-- The currently registered listeners in insertion order (what one full
`for..of` iteration visits when nothing mutates the set meanwhile). -/
def JSSet.elems (s : JSSet) : List Nat :=
  (s.filter fun p => p.2).map fun p => p.1

/-- The client state: the `baseURL` fixed at construction and the two listener
registries `beforeListeners` / `afterListeners` of src/src/index.ts. -/
structure APIClient where
  baseURL : String
  beforeListeners : JSSet
  afterListeners : JSSet
deriving DecidableEq, Repr

/-- The constructor `new APIClient(baseURL)`: both registries start empty. -/
def mkClient (baseURL : String) : APIClient :=
  { baseURL := baseURL, beforeListeners := [], afterListeners := [] }

/-- The `on(event, listener)` method: two independent `if` statements add the
listener to the matching registry; the client is returned for chaining. -/
def APIClient.on (c : APIClient) (event : String) (listener : Nat) : APIClient :=
  let c1 :=
    if event == "before" then
      { c with beforeListeners := c.beforeListeners.add listener }
    else c
  if event == "after" then
    { c1 with afterListeners := c1.afterListeners.add listener }
  else c1

/-- The `off(event, listener)` method: two independent `if` statements delete
the listener from the matching registry; the client is returned for chaining. -/
def APIClient.off (c : APIClient) (event : String) (listener : Nat) : APIClient :=
  let c1 :=
    if event == "before" then
      { c with beforeListeners := c.beforeListeners.delete listener }
    else c
  if event == "after" then
    { c1 with afterListeners := c1.afterListeners.delete listener }
  else c1

/-- The external collaborators and hook behaviours one `fetch` call runs
against.  `resolve` is the URL-resolution collaborator `new URL(path, baseURL)`
(a platform primitive, abstract here); `transport` is the platform `fetch`;
`before` / `after` are the subclass-level hooks (identity in the base class);
`beforeImpl` / `afterImpl` give each registered listener identifier its
behaviour.  A failure anywhere is an `Except.error`. -/
structure Env (E : Type) where
  resolve : String → String → String
  transport : Request → Except E Response
  before : Request → Except E Request
  after : Request → Response → Except E Response
  beforeImpl : Nat → Request → Except E Request
  afterImpl : Nat → Request → Response → Except E Response

/-- The loop `for (let listener of this.beforeListeners) request = await
listener(request)`, for listeners that do not mutate the registries (then the
live iteration visits exactly the insertion-order contents). -/
def runBeforeListeners {E : Type} (impl : Nat → Request → Except E Request) :
    List Nat → Request → Except E Request
  | [], r => .ok r
  | l :: rest, r => impl l r >>= runBeforeListeners impl rest

/-- The loop `for (let listener of this.afterListeners) response = await
listener(request, response)`: note every listener receives the same `request`
(the one dispatched), only the response is threaded. -/
def runAfterListeners {E : Type} (impl : Nat → Request → Response → Except E Response)
    (req : Request) : List Nat → Response → Except E Response
  | [], s => .ok s
  | l :: rest, s => impl l req s >>= runAfterListeners impl req rest

/-- The `fetch(path, init)` pipeline of src/src/index.ts, transcribed stage by
stage: resolve the URL, build the request, apply the subclass `before` hook,
thread the request through the before-listeners (guarded by `size > 0` as in
the source), dispatch to the transport, apply the subclass `after` hook with
the dispatched request, thread the response through the after-listeners (same
guard), and return the final response. -/
def APIClient.fetch {E : Type} (c : APIClient) (env : Env E)
    (path : String) (init : RequestInit) : Except E Response := do
  let url := env.resolve c.baseURL path
  let r0 := mkRequest url init
  let r1 ← env.before r0
  let r2 ←
    if c.beforeListeners.size > 0 then
      runBeforeListeners env.beforeImpl c.beforeListeners.elems r1
    else pure r1
  let s0 ← env.transport r2
  let s1 ← env.after r2 s0
  if c.afterListeners.size > 0 then
    runAfterListeners env.afterImpl r2 c.afterListeners.elems s1
  else pure s1

/-- The `get(path, init)` convenience method: spread `init`, force method GET,
delegate to `fetch`. -/
def APIClient.get {E : Type} (c : APIClient) (env : Env E)
    (path : String) (init : RequestInitNoMethod) : Except E Response :=
  c.fetch env path (init.withMethod "GET")

/-- The `post(path, init)` convenience method. -/
def APIClient.post {E : Type} (c : APIClient) (env : Env E)
    (path : String) (init : RequestInitNoMethod) : Except E Response :=
  c.fetch env path (init.withMethod "POST")

/-- The `put(path, init)` convenience method. -/
def APIClient.put {E : Type} (c : APIClient) (env : Env E)
    (path : String) (init : RequestInitNoMethod) : Except E Response :=
  c.fetch env path (init.withMethod "PUT")

/-- The `patch(path, init)` convenience method. -/
def APIClient.patch {E : Type} (c : APIClient) (env : Env E)
    (path : String) (init : RequestInitNoMethod) : Except E Response :=
  c.fetch env path (init.withMethod "PATCH")

/-- The `delete(path, init)` convenience method. -/
def APIClient.delete {E : Type} (c : APIClient) (env : Env E)
    (path : String) (init : RequestInitNoMethod) : Except E Response :=
  c.fetch env path (init.withMethod "DELETE")

/-- The JS `Set` iterator step: given the insertion sequence from absolute
position `i` on, the next live entry and its absolute position, if any. -/
def nextAlive : JSSet → Nat → Option (Nat × Nat)
  | [], _ => none
  | (k, alive) :: rest, i => if alive then some (k, i) else nextAlive rest (i + 1)

/-- The live rendering of `for (let listener of this.beforeListeners)
request = await listener(request)` for listeners that may mutate the client
(call `on` / `off`) while the loop runs: a cursor `i` walks the insertion
sequence of the CURRENT registry at each step, exactly the JS `Set` iterator
contract — an entry deleted before the cursor reaches it is skipped, an entry
appended during iteration is visited.  `impl` gives each listener identifier
its behaviour, now also receiving and returning the client.  Listeners that
keep adding fresh listeners make the JS loop run forever, so the model takes
fuel; `none` means the fuel ran out, `some` the result of the loop. -/
def runBeforeLive {E : Type} (impl : Nat → Request → APIClient → Except E (Request × APIClient)) :
    Nat → Nat → Request → APIClient → Option (Except E (Request × APIClient))
  | 0, _, _, _ => none
  | fuel + 1, i, r, c =>
    match nextAlive (c.beforeListeners.drop i) i with
    | none => some (.ok (r, c))
    | some (k, j) =>
      match impl k r c with
      | .error e => some (.error e)
      | .ok (r2, c2) => runBeforeLive impl fuel (j + 1) r2 c2

/-- Concrete request used in the mid-iteration-removal scenario. -/
def c2Req : Request := { url := "init", method := "GET", headers := [], body := none }

/-- Concrete client with before-listeners 1 and 2 registered in that order. -/
def c2Client : APIClient := ((mkClient "base").on "before" 1).on "before" 2

/-- Concrete listener behaviours for the mid-iteration-removal scenario:
listener 1 removes listener 2 from the before registry during its own run;
listener 2, if invoked, would rewrite the request url to MARK. -/
def c2Impl : Nat → Request → APIClient → Except String (Request × APIClient)
  | 1, r, c => .ok (r, c.off "before" 2)
  | 2, r, c => .ok ({ r with url := "MARK" }, c)
  | _, r, c => .ok (r, c)

/-- Concrete benign environment used by the witnesses: identity hooks, a
transport echoing the url into the body, a before-listener behaviour that
appends an L header carrying the listener identifier, and an after-listener
behaviour that appends the identifier to the body. -/
def wEnv : Env String :=
  { resolve := fun b p => b ++ p
  , transport := fun r => .ok { status := 200, body := r.url }
  , before := fun r => .ok r
  , after := fun _ s => .ok s
  , beforeImpl := fun k r => .ok { r with headers := r.headers ++ [("L", toString k)] }
  , afterImpl := fun k _ s => .ok { s with body := s.body ++ toString k } }

/-- The benign environment with a failing subclass before hook. -/
def wFailEnv : Env String := { wEnv with before := fun _ => .error "boom" }

/-- The benign environment with a failing subclass after hook. -/
def wFail2Env : Env String := { wEnv with after := fun _ _ => .error "boom" }

/-- The initial request of the witness scenarios (base b, path /p). -/
def wr1 : Request := { url := "b/p", method := "GET", headers := [], body := none }

/-- The witness request after listener 1. -/
def wr2 : Request := { wr1 with headers := [("L", "1")] }

/-- The witness request after listeners 1 and 2. -/
def wr3 : Request := { wr1 with headers := [("L", "1"), ("L", "2")] }

/-- The witness request after listeners 1, 2 and 3. -/
def wr4 : Request := { wr1 with headers := [("L", "1"), ("L", "2"), ("L", "3")] }

/-- The witness response as produced by the transport. -/
def ws0 : Response := { status := 200, body := "b/p" }

/-- The witness response after after-listener 1. -/
def ws2 : Response := { status := 200, body := "b/p1" }

/-- The witness response after after-listeners 1 and 2. -/
def ws3 : Response := { status := 200, body := "b/p12" }

/-- The witness response after after-listeners 1, 2 and 3. -/
def ws4 : Response := { status := 200, body := "b/p123" }

/-- Environment for the after-hook-request scenario: the resolver yields url A,
the single before-listener rewrites the url to B, and the subclass after hook
copies the url of the request it is shown into the response body, making that
request observable in the result. -/
def c9Env : Env String :=
  { resolve := fun _ _ => "A"
  , transport := fun _ => .ok { status := 200, body := "" }
  , before := fun r => .ok r
  , after := fun req s => .ok { s with body := req.url }
  , beforeImpl := fun _ r => .ok { r with url := "B" }
  , afterImpl := fun _ _ s => .ok s }

/-- Client of the after-hook-request scenario: one before-listener. -/
def c9Client : APIClient := (mkClient "base").on "before" 1

/-- The initial (original) request of the after-hook-request scenario. -/
def c9ReqA : Request := { url := "A", method := "GET", headers := [], body := none }

/-- The dispatched request of the after-hook-request scenario (after the
before-listener rewrote the url). -/
def c9ReqB : Request := { url := "B", method := "GET", headers := [], body := none }

/-- Reduction of bind on an ok value for the Except monad. -/
@[simp] theorem ok_bind {E α β : Type} (a : α) (f : α → Except E β) :
    (Except.ok a >>= f : Except E β) = f a := rfl

/-- Reduction of bind on an error value for the Except monad. -/
@[simp] theorem error_bind {E α β : Type} (e : E) (f : α → Except E β) :
    ((Except.error e : Except E α) >>= f) = .error e := rfl

/-- Adding a listener makes it present. -/
theorem JSSet.hasElem_add (s : JSSet) (l : Nat) : (s.add l).hasElem l = true := by
  unfold JSSet.add
  by_cases h : s.hasElem l = true
  · simp [h]
  · simp only [h]
    simp only [Bool.not_eq_true] at h
    simp [JSSet.hasElem, List.any_append]

/-- Adding the same listener reference twice equals adding it once. -/
theorem JSSet.add_add (s : JSSet) (l : Nat) : (s.add l).add l = s.add l := by
  have h := JSSet.hasElem_add s l
  rw [JSSet.add] at h
  unfold JSSet.add
  simp [h]

/-- Deletion removes exactly the deleted identifier from the enumeration. -/
theorem JSSet.elems_delete (s : JSSet) (l : Nat) :
    (s.delete l).elems = s.elems.filter fun k => k != l := by
  induction s with
  | nil => rfl
  | cons p rest ih =>
    obtain ⟨a, alive⟩ := p
    by_cases hl : a = l <;> cases alive <;>
      simp_all [JSSet.delete, JSSet.elems, List.filter_cons]

/-- Deleting an absent identifier is a no-op on the registry. -/
theorem JSSet.delete_absent (s : JSSet) (l : Nat) (h : s.hasElem l = false) :
    s.delete l = s := by
  induction s with
  | nil => rfl
  | cons p rest ih =>
    obtain ⟨a, alive⟩ := p
    simp only [JSSet.hasElem, List.any_cons, Bool.or_eq_false_iff] at h
    obtain ⟨h1, h2⟩ := h
    have hr : JSSet.delete rest l = rest := ih (by simpa [JSSet.hasElem] using h2)
    simp only [JSSet.delete, List.map_cons, h1, if_neg, Bool.false_eq_true, not_false_eq_true]
    rw [show List.map (fun p => if p.1 == l && p.2 then (p.1, false) else p) rest
          = JSSet.delete rest l from rfl, hr]

/-- The before chain only depends on the behaviours of the listeners that are
in the list it iterates. -/
theorem runBeforeListeners_congr {E : Type} (f g : Nat → Request → Except E Request)
    (ls : List Nat) (hfg : ∀ k ∈ ls, f k = g k) (r : Request) :
    runBeforeListeners f ls r = runBeforeListeners g ls r := by
  induction ls generalizing r with
  | nil => rfl
  | cons l rest ih =>
    simp only [runBeforeListeners, hfg l (List.mem_cons_self l rest)]
    cases g l r with
    | error e => rfl
    | ok r2 =>
      simp only [ok_bind]
      exact ih (fun k hk => hfg k (List.mem_cons_of_mem l hk)) r2

/-- C1: with before-listeners 1, 2, 3 registered in that order and each stage
succeeding, the request value handed to the transport is exactly listener 3
applied to listener 2 applied to listener 1 applied to the subclass before
hook applied to the initial request: the subclass hook runs first and the
instance listeners follow in insertion order, each receiving the previous
stage output. -/
theorem fetch_before_chain_insertion_order {E : Type} (env : Env E) (base path : String)
    (init : RequestInit) (r1 r2 r3 r4 : Request)
    (h0 : env.before (mkRequest (env.resolve base path) init) = .ok r1)
    (h1 : env.beforeImpl 1 r1 = .ok r2)
    (h2 : env.beforeImpl 2 r2 = .ok r3)
    (h3 : env.beforeImpl 3 r3 = .ok r4) :
    ((((mkClient base).on "before" 1).on "before" 2).on "before" 3).fetch env path init
      = env.transport r4 >>= fun s0 => env.after r4 s0 := by
  show (do
    let r1 ← env.before (mkRequest (env.resolve base path) init)
    let r2 ← runBeforeListeners env.beforeImpl [1, 2, 3] r1
    let s0 ← env.transport r2
    let s1 ← env.after r2 s0
    pure s1 : Except E Response) = _
  rw [h0]
  simp only [ok_bind, runBeforeListeners, h1, h2, h3]
  cases env.transport r4 with
  | error e => rfl
  | ok s0 => simp only [ok_bind]; cases env.after r4 s0 <;> rfl

/-- Witness for C1: concrete environment where the subclass hook is identity
and each listener appends an L header, run against base b and path /p. -/
theorem fetch_before_chain_insertion_order_witness :
    wEnv.before (mkRequest (wEnv.resolve "b" "/p") {}) = .ok wr1
    ∧ wEnv.beforeImpl 1 wr1 = .ok wr2
    ∧ wEnv.beforeImpl 2 wr2 = .ok wr3
    ∧ wEnv.beforeImpl 3 wr3 = .ok wr4
    ∧ ((((mkClient "b").on "before" 1).on "before" 2).on "before" 3).fetch wEnv "/p" {}
      = wEnv.transport wr4 >>= fun s0 => wEnv.after wr4 s0 :=
  ⟨rfl, rfl, rfl, rfl,
   fetch_before_chain_insertion_order wEnv "b" "/p" {} wr1 wr2 wr3 wr4 rfl rfl rfl rfl⟩

/-- C2 counterexample: the claim asserts snapshot isolation — a listener that
removes a not-yet-invoked listener of the same channel during its own run does
not prevent that listener from being invoked in the current request.  In the
source the loop iterates the live Set, so this fails: with listeners 1 and 2
registered in that order, listener 1 removing listener 2 mid-iteration, the
live run returns the request UNCHANGED (listener 2 never rewrote the url to
MARK), while the snapshot composition the claim predicts returns the MARK
request, and the two requests differ. -/
theorem live_set_iteration_breaks_snapshot_isolation :
    runBeforeLive c2Impl 3 0 c2Req c2Client
      = some (.ok (c2Req, { baseURL := "base"
                          , beforeListeners := [(1, true), (2, false)]
                          , afterListeners := [] }))
    ∧ runBeforeListeners (fun k r => (c2Impl k r c2Client).map Prod.fst)
        c2Client.beforeListeners.elems c2Req
      = .ok { c2Req with url := "MARK" }
    ∧ c2Req ≠ { c2Req with url := "MARK" } :=
  ⟨rfl, rfl, by decide⟩

/-- C2 amended: the pipeline stage iterates the live registry, not a snapshot,
so mutations made after the stage has begun iterating DO change which listeners
it invokes.  Removal half (first and second conjunct): for any behaviour of
listener 2 and any transform applied by listener 1, when listener 1 removes
listener 2 during its own run, listener 2 is not invoked in the current
request (the stage result only reflects listener 1), and the final registry no
longer enumerates listener 2, so subsequent requests skip it too.  Addition
half (third conjunct): when listener 1 registers a new listener 2 during its
own run, the freshly appended listener 2 IS invoked in the current request —
the stage result reflects both transforms in order — and it stays registered. -/
theorem live_registry_iteration_semantics (E : Type) (base : String) (g h : Request → Request)
    (f : Nat → Request → APIClient → Except E (Request × APIClient)) (r : Request) :
    (runBeforeLive (fun k r c => if k = 1 then .ok (g r, c.off "before" 2) else f k r c) 2 0 r
        (((mkClient base).on "before" 1).on "before" 2)
      = some (.ok (g r, { baseURL := base
                        , beforeListeners := [(1, true), (2, false)]
                        , afterListeners := [] })))
    ∧ JSSet.elems [(1, true), (2, false)] = [1]
    ∧ (runBeforeLive
        (fun k r c =>
          if k = 1 then .ok (g r, c.on "before" 2)
          else if k = 2 then .ok (h r, c)
          else f k r c) 3 0 r
        ((mkClient base).on "before" 1)
      = some (.ok (h (g r), { baseURL := base
                            , beforeListeners := [(1, true), (2, true)]
                            , afterListeners := [] }))) :=
  ⟨rfl, rfl, rfl⟩

/-- C3: a failure in the before stage aborts the pipeline.  First conjunct: if
the subclass before hook fails, the whole fetch fails with that same error, for
every listener behaviour, transport and after stage (so no listener runs, the
transport is never invoked, and the error reaches the caller unchanged).
Second conjunct: a failing listener makes the before chain fail with its error
no matter which listeners follow it.  Third conjunct: at the fetch level, with
listeners 1 and 2 registered and listener 1 failing, fetch fails with that
error for every transport and after stage. -/
theorem before_failure_aborts_without_dispatch {E : Type} :
    (∀ (env : Env E) (c : APIClient) (path : String) (init : RequestInit) (e : E),
      env.before (mkRequest (env.resolve c.baseURL path) init) = .error e →
      ∀ bi t h a, c.fetch { env with beforeImpl := bi, transport := t, after := h, afterImpl := a }
          path init = .error e)
    ∧ (∀ (impl : Nat → Request → Except E Request) (l : Nat) (rest : List Nat) (r : Request) (e : E),
      impl l r = .error e → runBeforeListeners impl (l :: rest) r = .error e)
    ∧ (∀ (env : Env E) (base path : String) (init : RequestInit) (r1 : Request) (e : E)
        (bi : Nat → Request → Except E Request),
      env.before (mkRequest (env.resolve base path) init) = .ok r1 →
      bi 1 r1 = .error e →
      ∀ t h a, (((mkClient base).on "before" 1).on "before" 2).fetch
          { env with beforeImpl := bi, transport := t, after := h, afterImpl := a } path init
        = .error e) := by
  refine ⟨?_, ?_, ?_⟩
  · intro env c path init e he bi t h a
    simp only [APIClient.fetch, he, error_bind]
  · intro impl l rest r e he
    simp only [runBeforeListeners, he, error_bind]
  · intro env base path init r1 e bi h0 h1 t h a
    show (do
      let r1 ← env.before (mkRequest (env.resolve base path) init)
      let r2 ← runBeforeListeners bi [1, 2] r1
      let s0 ← t r2
      let s1 ← h r2 s0
      pure s1 : Except E Response) = _
    rw [h0]
    simp only [ok_bind, runBeforeListeners, h1, error_bind]

/-- Witness for C3: the failing-hook environment and a failing listener 1. -/
theorem before_failure_aborts_without_dispatch_witness :
    (wFailEnv.before (mkRequest (wFailEnv.resolve "b" "/p") {}) = .error "boom")
    ∧ ((mkClient "b").fetch { wFailEnv with
          beforeImpl := wEnv.beforeImpl,
          transport := wEnv.transport,
          after := wEnv.after,
          afterImpl := wEnv.afterImpl } "/p" {}
      = .error "boom")
    ∧ (runBeforeListeners (fun _ _ => (.error "boom" : Except String Request)) [5, 6, 7] wr1
      = .error "boom")
    ∧ (wEnv.before (mkRequest (wEnv.resolve "b" "/p") {}) = .ok wr1)
    ∧ ((((mkClient "b").on "before" 1).on "before" 2).fetch
        { wEnv with
          beforeImpl := fun k _ => if k = 1 then .error "boom" else .ok wr1,
          transport := wEnv.transport,
          after := wEnv.after,
          afterImpl := wEnv.afterImpl } "/p" {}
      = .error "boom") :=
  ⟨rfl,
   before_failure_aborts_without_dispatch.1 wFailEnv (mkClient "b") "/p" {} "boom" rfl
     wEnv.beforeImpl wEnv.transport wEnv.after wEnv.afterImpl,
   before_failure_aborts_without_dispatch.2.1 (fun _ _ => .error "boom") 5 [6, 7] wr1 "boom" rfl,
   rfl,
   before_failure_aborts_without_dispatch.2.2 wEnv "b" "/p" {} wr1 "boom"
     (fun k _ => if k = 1 then .error "boom" else .ok wr1) rfl rfl
     wEnv.transport wEnv.after wEnv.afterImpl⟩

/-- C4: for a request that reaches dispatch, with after-listeners 1, 2, 3
registered in that order and each stage succeeding, the caller receives the
transport response threaded first through the subclass after hook and then
through each after-listener in insertion order (first conjunct); a failing
after-listener aborts the remaining after chain with its error no matter which
listeners follow (second conjunct); a failing subclass after hook makes fetch
fail with that error for every after-listener behaviour (third conjunct). -/
theorem fetch_after_chain_insertion_order {E : Type} :
    (∀ (env : Env E) (base path : String) (init : RequestInit) (rB : Request)
        (s0 s1 s2 s3 s4 : Response),
      env.before (mkRequest (env.resolve base path) init) = .ok rB →
      env.transport rB = .ok s0 →
      env.after rB s0 = .ok s1 →
      env.afterImpl 1 rB s1 = .ok s2 →
      env.afterImpl 2 rB s2 = .ok s3 →
      env.afterImpl 3 rB s3 = .ok s4 →
      ((((mkClient base).on "after" 1).on "after" 2).on "after" 3).fetch env path init = .ok s4)
    ∧ (∀ (impl : Nat → Request → Response → Except E Response) (l : Nat) (rest : List Nat)
        (req : Request) (s : Response) (e : E),
      impl l req s = .error e → runAfterListeners impl req (l :: rest) s = .error e)
    ∧ (∀ (env : Env E) (base path : String) (init : RequestInit) (rB : Request) (s0 : Response) (e : E),
      env.before (mkRequest (env.resolve base path) init) = .ok rB →
      env.transport rB = .ok s0 →
      env.after rB s0 = .error e →
      ∀ ai, (((mkClient base).on "after" 1).on "after" 2).fetch { env with afterImpl := ai }
          path init = .error e) := by
  refine ⟨?_, ?_, ?_⟩
  · intro env base path init rB s0 s1 s2 s3 s4 hb ht ha h1 h2 h3
    show (do
      let r1 ← env.before (mkRequest (env.resolve base path) init)
      let s0 ← env.transport r1
      let s1 ← env.after r1 s0
      runAfterListeners env.afterImpl r1 [1, 2, 3] s1 : Except E Response) = _
    rw [hb]
    simp only [ok_bind, ht, ha, runAfterListeners, h1, h2, h3]
  · intro impl l rest req s e he
    simp only [runAfterListeners, he, error_bind]
  · intro env base path init rB s0 e hb ht ha ai
    show (do
      let r1 ← env.before (mkRequest (env.resolve base path) init)
      let s0 ← env.transport r1
      let s1 ← env.after r1 s0
      runAfterListeners ai r1 [1, 2] s1 : Except E Response) = _
    rw [hb]
    simp only [ok_bind, ht, ha, error_bind]

/-- Witness for C4: the benign environment (after-listeners append their
identifier to the body), plus a failing after chain and a failing after hook. -/
theorem fetch_after_chain_insertion_order_witness :
    (wEnv.before (mkRequest (wEnv.resolve "b" "/p") {}) = .ok wr1)
    ∧ (wEnv.transport wr1 = .ok ws0)
    ∧ (wEnv.after wr1 ws0 = .ok ws0)
    ∧ (wEnv.afterImpl 1 wr1 ws0 = .ok ws2)
    ∧ (wEnv.afterImpl 2 wr1 ws2 = .ok ws3)
    ∧ (wEnv.afterImpl 3 wr1 ws3 = .ok ws4)
    ∧ (((((mkClient "b").on "after" 1).on "after" 2).on "after" 3).fetch wEnv "/p" {} = .ok ws4)
    ∧ (runAfterListeners (fun _ _ _ => (.error "boom" : Except String Response)) wr1 [5, 6] ws0
      = .error "boom")
    ∧ ((((mkClient "b").on "after" 1).on "after" 2).fetch
        { wFail2Env with afterImpl := wEnv.afterImpl } "/p" {} = .error "boom") :=
  ⟨rfl, rfl, rfl, rfl, rfl, rfl,
   fetch_after_chain_insertion_order.1 wEnv "b" "/p" {} wr1 ws0 ws0 ws2 ws3 ws4
     rfl rfl rfl rfl rfl rfl,
   fetch_after_chain_insertion_order.2.1 (fun _ _ _ => .error "boom") 5 [6] wr1 ws0 "boom" rfl,
   fetch_after_chain_insertion_order.2.2 wFail2Env "b" "/p" {} wr1 ws0 "boom" rfl rfl rfl
     wEnv.afterImpl⟩

/-- C5: registration is keyed by function identity.  First conjunct: for every
client and channel, registering the same listener reference twice leaves the
registry state identical to registering it once.  Second conjunct: two distinct
references are kept as two independent entries in insertion order.  Third
conjunct: a twice-registered reference is enumerated once, so it is invoked
once per request.  Fourth conjunct: the chain invokes each enumerated entry,
so both distinct entries run even if their behaviours coincide. -/
theorem listener_registration_identity_keyed :
    (∀ (c : APIClient) (ev : String) (l : Nat), (c.on ev l).on ev l = c.on ev l)
    ∧ (∀ (l1 l2 : Nat), l1 ≠ l2 → ∀ (base : String),
        (((mkClient base).on "before" l1).on "before" l2).beforeListeners.elems = [l1, l2])
    ∧ (∀ (base : String) (l : Nat),
        (((mkClient base).on "before" l).on "before" l).beforeListeners.elems = [l])
    ∧ (∀ (E : Type) (impl : Nat → Request → Except E Request) (r : Request) (l1 l2 : Nat),
        runBeforeListeners impl [l1, l2] r = impl l1 r >>= impl l2) := by
  refine ⟨?_, ?_, ?_, ?_⟩
  · intro c ev l
    by_cases hb : ev = "before"
    · subst hb
      simp [APIClient.on, JSSet.add_add]
    · by_cases ha : ev = "after"
      · subst ha
        simp [APIClient.on, JSSet.add_add]
      · simp [APIClient.on, hb, ha]
  · intro l1 l2 hne base
    simp [APIClient.on, mkClient, JSSet.add, JSSet.hasElem, JSSet.elems, hne, Ne.symm hne]
  · intro base l
    simp [APIClient.on, mkClient, JSSet.add, JSSet.hasElem, JSSet.elems]
  · intro E impl r l1 l2
    simp only [runBeforeListeners]
    cases impl l1 r with
    | error e => rfl
    | ok r2 =>
      simp only [ok_bind, runBeforeListeners]
      cases impl l2 r2 <;> rfl

/-- Witness for C5: the distinct references 1 and 2 form two entries. -/
theorem listener_registration_identity_keyed_witness :
    ((1 : Nat) ≠ 2)
    ∧ ((((mkClient "b").on "before" 1).on "before" 2).beforeListeners.elems = [1, 2]) :=
  ⟨by decide, listener_registration_identity_keyed.2.1 1 2 (by decide) "b"⟩

/-- C6: a transport response with a non-2xx status is not a failure: with the
default identity hooks and no listeners, fetch returns it to the caller as a
normal result with status and body intact. -/
theorem non_success_response_passthrough {E : Type} (base path : String) (init : RequestInit)
    (res : String → String → String)
    (bi : Nat → Request → Except E Request)
    (ai : Nat → Request → Response → Except E Response)
    (status : Nat) (body : String)
    (_h : ¬ (200 ≤ status ∧ status < 300)) :
    (mkClient base).fetch
      { resolve := res
      , transport := fun _ => .ok { status := status, body := body }
      , before := fun r => .ok r
      , after := fun _ s => .ok s
      , beforeImpl := bi
      , afterImpl := ai } path init
    = .ok { status := status, body := body } := rfl

/-- Witness for C6: a 404 response reaches the caller unchanged. -/
theorem non_success_response_passthrough_witness :
    (¬ (200 ≤ 404 ∧ 404 < 300))
    ∧ ((mkClient "b").fetch
      { resolve := fun b p => b ++ p
      , transport := fun _ => .ok { status := 404, body := "missing" }
      , before := fun r => .ok r
      , after := fun _ s => .ok s
      , beforeImpl := wEnv.beforeImpl
      , afterImpl := wEnv.afterImpl } "/p" {}
    = .ok { status := 404, body := "missing" }) :=
  ⟨by decide,
   non_success_response_passthrough "b" "/p" {} (fun b p => b ++ p)
     wEnv.beforeImpl wEnv.afterImpl 404 "missing" (by decide)⟩

/-- C7: `off` removes exactly the given listener.  First and second conjunct:
after `off`, the channel enumeration equals the previous enumeration with
exactly that identifier filtered out (no other listener is touched).  Third
and fourth conjunct: when the listener is absent, `off` is a no-op returning
the client unchanged (it never fails, by totality).  Fifth conjunct: a request
issued after the removal never invokes the removed listener — the before chain
over the updated registry does not depend on its behaviour. -/
theorem off_removes_exactly_the_listener :
    (∀ (c : APIClient) (l : Nat),
      (c.off "before" l).beforeListeners.elems = c.beforeListeners.elems.filter fun k => k != l)
    ∧ (∀ (c : APIClient) (l : Nat),
      (c.off "after" l).afterListeners.elems = c.afterListeners.elems.filter fun k => k != l)
    ∧ (∀ (c : APIClient) (l : Nat),
      c.beforeListeners.hasElem l = false → c.off "before" l = c)
    ∧ (∀ (c : APIClient) (l : Nat),
      c.afterListeners.hasElem l = false → c.off "after" l = c)
    ∧ (∀ (E : Type) (f g : Nat → Request → Except E Request) (c : APIClient) (l : Nat) (r : Request),
      (∀ k, k ≠ l → f k = g k) →
      runBeforeListeners f (c.off "before" l).beforeListeners.elems r
        = runBeforeListeners g (c.off "before" l).beforeListeners.elems r) := by
  refine ⟨?_, ?_, ?_, ?_, ?_⟩
  · intro c l
    simp [APIClient.off, JSSet.elems_delete]
  · intro c l
    simp [APIClient.off, JSSet.elems_delete]
  · intro c l h
    simp [APIClient.off, JSSet.delete_absent _ _ h]
  · intro c l h
    simp [APIClient.off, JSSet.delete_absent _ _ h]
  · intro E f g c l r hfg
    refine runBeforeListeners_congr f g _ ?_ r
    intro k hk
    refine hfg k ?_
    have hmem : k ∈ c.beforeListeners.elems.filter fun k => k != l := by
      rw [APIClient.off] at hk
      simpa [JSSet.elems_delete] using hk
    have := List.of_mem_filter hmem
    simpa using this

/-- Witness for C7: removing the absent listener 9 is a no-op, and the before
chain after such a removal is blind to the behaviour bound to 9. -/
theorem off_removes_exactly_the_listener_witness :
    ((mkClient "b").beforeListeners.hasElem 9 = false)
    ∧ ((mkClient "b").off "before" 9 = mkClient "b")
    ∧ ((mkClient "b").afterListeners.hasElem 9 = false)
    ∧ ((mkClient "b").off "after" 9 = mkClient "b")
    ∧ (runBeforeListeners wEnv.beforeImpl
        ((((mkClient "b").on "before" 1).off "before" 9).beforeListeners.elems) wr1
      = runBeforeListeners (fun k r => if k = 9 then .error "x" else wEnv.beforeImpl k r)
        ((((mkClient "b").on "before" 1).off "before" 9).beforeListeners.elems) wr1) :=
  ⟨rfl, off_removes_exactly_the_listener.2.2.1 (mkClient "b") 9 rfl,
   rfl, off_removes_exactly_the_listener.2.2.2.1 (mkClient "b") 9 rfl,
   off_removes_exactly_the_listener.2.2.2.2 String wEnv.beforeImpl
     (fun k r => if k = 9 then .error "x" else wEnv.beforeImpl k r)
     ((mkClient "b").on "before" 1) 9 wr1
     (fun k hk => by funext r; exact (if_neg hk).symm)⟩

/-- C8: each of the five verb convenience methods forwards every option
unchanged while forcing its HTTP verb, then delegates to the generic fetch
(first five conjuncts, definitional equalities); and on a client with base
https://example.com, no hooks and a correct URL resolver, a GET of /path
dispatches exactly the request with url https://example.com/path and method
GET (last conjunct, stated for an arbitrary transport, which receives that
request). -/
theorem verb_methods_force_method_and_delegate {E : Type} :
    (∀ (c : APIClient) (env : Env E) (path : String) (init : RequestInitNoMethod),
      c.get env path init = c.fetch env path (init.withMethod "GET"))
    ∧ (∀ (c : APIClient) (env : Env E) (path : String) (init : RequestInitNoMethod),
      c.post env path init = c.fetch env path (init.withMethod "POST"))
    ∧ (∀ (c : APIClient) (env : Env E) (path : String) (init : RequestInitNoMethod),
      c.put env path init = c.fetch env path (init.withMethod "PUT"))
    ∧ (∀ (c : APIClient) (env : Env E) (path : String) (init : RequestInitNoMethod),
      c.patch env path init = c.fetch env path (init.withMethod "PATCH"))
    ∧ (∀ (c : APIClient) (env : Env E) (path : String) (init : RequestInitNoMethod),
      c.delete env path init = c.fetch env path (init.withMethod "DELETE"))
    ∧ (∀ (res : String → String → String) (t : Request → Except E Response)
        (bi : Nat → Request → Except E Request)
        (ai : Nat → Request → Response → Except E Response),
      res "https://example.com" "/path" = "https://example.com/path" →
      (mkClient "https://example.com").get
        { resolve := res, transport := t, before := fun r => .ok r, after := fun _ s => .ok s
        , beforeImpl := bi, afterImpl := ai } "/path" {}
      = t { url := "https://example.com/path", method := "GET", headers := [], body := none }) := by
  refine ⟨fun _ _ _ _ => rfl, fun _ _ _ _ => rfl, fun _ _ _ _ => rfl,
    fun _ _ _ _ => rfl, fun _ _ _ _ => rfl, ?_⟩
  intro res t bi ai hres
  show (do
    let s0 ← t (mkRequest (res "https://example.com" "/path")
      (RequestInitNoMethod.withMethod {} "GET"))
    pure s0 : Except E Response) = _
  rw [hres]
  show (do
    let s0 ← t { url := "https://example.com/path", method := "GET", headers := [], body := none }
    pure s0 : Except E Response) = _
  cases t { url := "https://example.com/path", method := "GET", headers := [], body := none } <;> rfl

/-- Witness for C8: string concatenation is a correct resolver at these
arguments, and the scenario runs against the echo transport. -/
theorem verb_methods_force_method_and_delegate_witness :
    ((fun (b p : String) => b ++ p) "https://example.com" "/path" = "https://example.com/path")
    ∧ ((mkClient "https://example.com").get
        { resolve := fun b p => b ++ p, transport := wEnv.transport
        , before := fun r => .ok r, after := fun _ s => .ok s
        , beforeImpl := wEnv.beforeImpl, afterImpl := wEnv.afterImpl } "/path" {}
      = wEnv.transport
          { url := "https://example.com/path", method := "GET", headers := [], body := none }) :=
  ⟨rfl,
   verb_methods_force_method_and_delegate.2.2.2.2.2 (fun b p => b ++ p)
     wEnv.transport wEnv.beforeImpl wEnv.afterImpl rfl⟩

/-- C9 counterexample: the claim says the request value exposed to the
two-argument subclass after hook is the ORIGINAL request of the pipeline
invocation.  In the source, `after` is called with the `request` variable
after it was reassigned by the before chain.  Concretely: the resolver yields
url A (the original request), the sole before-listener rewrites the url to B,
and the after hook copies the url it is shown into the response body — the
result carries B, the original request carried A, and B differs from A. -/
theorem after_hook_request_is_not_original_counterexample :
    c9Client.fetch c9Env "p" {} = .ok { status := 200, body := "B" }
    ∧ mkRequest (c9Env.resolve c9Client.baseURL "p") {}
        = { url := "A", method := "GET", headers := [], body := none }
    ∧ ("B" : String) ≠ "A" :=
  ⟨rfl, rfl, by decide⟩

/-- C9 amended: the request value exposed to the subclass-level after hook
(alongside the response) is the request output by the full before chain — the
request that was dispatched to the transport — and the after-listeners receive
that same request; it coincides with the original request only when the before
chain leaves the request unchanged. -/
theorem after_hook_receives_dispatched_request {E : Type} (c : APIClient) (env : Env E)
    (path : String) (init : RequestInit) (r1 r2 : Request) (s0 : Response)
    (h0 : env.before (mkRequest (env.resolve c.baseURL path) init) = .ok r1)
    (h1 : (if c.beforeListeners.size > 0 then
        runBeforeListeners env.beforeImpl c.beforeListeners.elems r1
      else pure r1) = .ok r2)
    (h2 : env.transport r2 = .ok s0) :
    c.fetch env path init
      = env.after r2 s0 >>= fun s1 =>
          if c.afterListeners.size > 0 then
            runAfterListeners env.afterImpl r2 c.afterListeners.elems s1
          else pure s1 := by
  simp only [APIClient.fetch, h0, ok_bind]
  by_cases hsz : c.beforeListeners.size > 0
  · rw [if_pos hsz] at h1
    rw [if_pos hsz, h1, ok_bind, h2, ok_bind]
  · rw [if_neg hsz] at h1
    have hr : r1 = r2 := by
      have := h1
      simp only [pure, Except.pure, Except.ok.injEq] at this
      exact this
    subst hr
    rw [if_neg hsz]
    simp only [pure, Except.pure, ok_bind, h2]

/-- Witness for C9 amended: in the concrete scenario the after hook is applied
to the dispatched request with url B. -/
theorem after_hook_receives_dispatched_request_witness :
    (c9Env.before (mkRequest (c9Env.resolve c9Client.baseURL "p") {}) = .ok c9ReqA)
    ∧ ((if c9Client.beforeListeners.size > 0 then
          runBeforeListeners c9Env.beforeImpl c9Client.beforeListeners.elems c9ReqA
        else pure c9ReqA) = .ok c9ReqB)
    ∧ (c9Env.transport c9ReqB = .ok { status := 200, body := "" })
    ∧ (c9Client.fetch c9Env "p" {}
      = c9Env.after c9ReqB { status := 200, body := "" } >>= fun s1 =>
          if c9Client.afterListeners.size > 0 then
            runAfterListeners c9Env.afterImpl c9ReqB c9Client.afterListeners.elems s1
          else pure s1) :=
  ⟨rfl, rfl, rfl,
   after_hook_receives_dispatched_request c9Client c9Env "p" {} c9ReqA c9ReqB
     { status := 200, body := "" } rfl rfl rfl⟩

/-- C10: frame properties of the registration surface.  For every client,
channel string and listener, `on` and `off` leave the baseURL unchanged, and
each channel operation leaves the other channel registry untouched
(registering or removing a before-listener never alters the after registry and
vice versa).  The pipeline operations `fetch` / `get` / `post` / `put` /
`patch` / `delete` are functions of the client that return only a response, so
in this embedding they cannot alter the baseURL or the registries at all. -/
theorem on_off_preserve_base_and_other_channel :
    ∀ (c : APIClient) (ev : String) (l : Nat),
      ((c.on ev l).baseURL = c.baseURL)
      ∧ ((c.off ev l).baseURL = c.baseURL)
      ∧ ((c.on "before" l).afterListeners = c.afterListeners)
      ∧ ((c.on "after" l).beforeListeners = c.beforeListeners)
      ∧ ((c.off "before" l).afterListeners = c.afterListeners)
      ∧ ((c.off "after" l).beforeListeners = c.beforeListeners) := by
  intro c ev l
  refine ⟨?_, ?_, rfl, rfl, rfl, rfl⟩ <;>
    · simp only [APIClient.on, APIClient.off]
      split <;> split <;> rfl
